import Mathlib

/-!
The program mobiledoc-to-markdown: card handlers and the conversion pipeline.

A shallow embedding of `main.go`.  The program registers four card handlers
(`image`, `gallery`, `markdown`, `html`) with the Mobiledoc renderer and pipes a
JSON envelope `{title, mobiledoc}` through it.

The parts of the Go standard library the handlers run through are embedded too:
the `%s` verb of `fmt.Sprintf`, and the escapers `html/template` inserts
for the two actions of `figureTemplate`.
-/

namespace MobiledocToMarkdown

/-! ## Dynamic values -/

/-- A Go `interface{}` as `encoding/json` produces it: `nil`, `bool`, `float64`,
`string`, `[]interface{}` or `map[string]interface{}`.  No handler computes with
a number, it can only print one, so a `float64` is carried by the text `%v`
prints for it.  A map is an association list; indexing takes the first binding
of the key. -/
inductive Value where
  | null
  | bool (b : Bool)
  | number (text : String)
  | str (s : String)
  | list (xs : List Value)
  | object (fields : List (String × Value))

/-- Why a card handler panics: a failed type assertion `x.(T)`, or the explicit
`panic(fmt.Errorf("renderImage: %v", err))`. -/
inductive Fault where
  | typeAssertion
  | renderImage (err : String)
  deriving DecidableEq

/-- The assertion `payload.(map[string]interface{})`. -/
def assertMap : Value → Except Fault (List (String × Value))
  | .object fields => .ok fields
  | _ => .error .typeAssertion

/-- The assertion `m[key].(string)`; `none` is the `nil` a missing key yields. -/
def assertString : Option Value → Except Fault String
  | some (.str s) => .ok s
  | _ => .error .typeAssertion

/-- The assertion `m[key].([]interface{})`. -/
def assertSlice : Option Value → Except Fault (List Value)
  | some (.list xs) => .ok xs
  | _ => .error .typeAssertion

/-! ## `fmt.Sprintf` with the verb `%s` -/

/-- Insert a printed map entry so that the keys stay in increasing order
(`fmt` prints a map sorted by key). -/
def insertEntry (e : String × String) : List (String × String) → List (String × String)
  | [] => [e]
  | x :: rest => if e.1 < x.1 then e :: x :: rest else x :: insertEntry e rest

/-- Sort printed map entries by key. -/
def sortEntries : List (String × String) → List (String × String)
  | [] => []
  | e :: rest => insertEntry e (sortEntries rest)

mutual
/-- The text `printValue(v, 's', depth)` writes for an element nested in a slice
or a map: a string prints as it is, `nil` prints `<nil>`, and a `bool` or
`float64` prints the bad-verb form. -/
def printValue : Value → String
  | .null => "<nil>"
  | .bool b => "%!s(bool=" ++ (if b then "true" else "false") ++ ")"
  | .number text => "%!s(float64=" ++ text ++ ")"
  | .str s => s
  | .list xs => "[" ++ " ".intercalate (printValues xs) ++ "]"
  | .object fields =>
    "map[" ++ " ".intercalate ((sortEntries (printFields fields)).map fun e => e.1 ++ ":" ++ e.2) ++ "]"
/-- The elements of a slice, each printed with `%s`. -/
def printValues : List Value → List String
  | [] => []
  | x :: xs => printValue x :: printValues xs
/-- The entries of a map, each value printed with `%s`. -/
def printFields : List (String × Value) → List (String × String)
  | [] => []
  | (k, x) :: rest => (k, printValue x) :: printFields rest
end

/-- The text `%s` prints for one operand of `fmt.Sprintf`: a string operand is
inserted as it is, a `nil` operand prints `%!s(<nil>)`, anything else prints as
`printValue` does. -/
def fmtS : Value → String
  | .null => "%!s(<nil>)"
  | v => printValue v

/-! ## `html/template` escapers used by `figureTemplate` -/

/-- The entry of `htmlReplacementTable` for the rune `r`, if it has one. -/
def htmlReplacementTable (r : Nat) : Option String :=
  if r = 0 then some (String.singleton (Char.ofNat 0xFFFD))
  else if r = 34 then some "&#34;"
  else if r = 38 then some "&amp;"
  else if r = 39 then some "&#39;"
  else if r = 43 then some "&#43;"
  else if r = 60 then some "&lt;"
  else if r = 62 then some "&gt;"
  else none

/-- The loop of `htmlReplacer(s, htmlReplacementTable, true)`: a rune with a
table entry is replaced by it, every other rune is copied. -/
def htmlReplacerChars : List Char → List Char
  | [] => []
  | c :: cs =>
    (match htmlReplacementTable c.toNat with
      | some repl => repl.data
      | none => [c]) ++ htmlReplacerChars cs

/-- The function `htmlReplacer(s, htmlReplacementTable, true)`. -/
def htmlReplacer (s : String) : String := ⟨htmlReplacerChars s.data⟩

/-- The escaper `_html_template_htmlescaper` on a plain string. -/
def htmlEscaper (s : String) : String := htmlReplacer s

/-- The escaper `_html_template_attrescaper` on a plain string. -/
def attrEscaper (s : String) : String := htmlReplacer s

/-- Simple case folding as far as it reaches an ASCII letter: upper case to
lower case, U+017F to `s`, U+212A to `k`. -/
def foldChar (c : Char) : Char :=
  if 65 ≤ c.toNat ∧ c.toNat ≤ 90 then Char.ofNat (c.toNat + 32)
  else if c.toNat = 0x17F then 's'
  else if c.toNat = 0x212A then 'k'
  else c

/-- The comparison `strings.EqualFold(protocol, name)` for an ASCII lower-case `name`. -/
def equalFold (protocol : List Char) (name : String) : Bool :=
  protocol.map foldChar == name.data

/-- The text before the first `:`, as `strings.Cut(s, ":")` gives it; `none`
when there is no colon. -/
def cutColon : List Char → Option (List Char)
  | [] => none
  | c :: cs => if c = ':' then some [] else (cutColon cs).map (c :: ·)

/-- The check `isSafeURL`: a URL with a scheme (a colon before any slash) is
safe only for the schemes http, https and mailto. -/
def isSafeURL (s : String) : Bool :=
  match cutColon s.data with
  | some protocol =>
    if !protocol.contains '/' then
      !(!equalFold protocol "http" && !equalFold protocol "https" && !equalFold protocol "mailto")
    else true
  | none => true

/-- The escaper `_html_template_urlfilter` on a plain string. -/
def urlFilter (s : String) : String :=
  if !isSafeURL s then "#" ++ "ZgotmplZ" else s

/-- The UTF-8 bytes of a character. -/
def utf8Bytes (c : Char) : List Nat :=
  let n := c.toNat
  if n < 0x80 then [n]
  else if n < 0x800 then [0xC0 + n / 64, 0x80 + n % 64]
  else if n < 0x10000 then [0xE0 + n / 4096, 0x80 + n / 64 % 64, 0x80 + n % 64]
  else [0xF0 + n / 262144, 0x80 + n / 4096 % 64, 0x80 + n / 64 % 64, 0x80 + n % 64]

/-- One lower-case hexadecimal digit. -/
def hexDigit (n : Nat) : Char :=
  if n < 10 then Char.ofNat (48 + n) else Char.ofNat (87 + n)

/-- The predicate `isHex` on a byte. -/
def isHex (c : Nat) : Bool :=
  (48 ≤ c && c ≤ 57) || (97 ≤ c && c ≤ 102) || (65 ≤ c && c ≤ 70)

/-- Whether `processURLOnto` with `norm = true` copies the byte `c` (followed by
the bytes `rest`) unchanged: reserved and unreserved bytes, ASCII letters and
digits, and a `%` that starts a valid escape. -/
def urlKeeps (c : Nat) (rest : List Nat) : Bool :=
  if c = 33 ∨ c = 35 ∨ c = 36 ∨ c = 38 ∨ c = 42 ∨ c = 43 ∨ c = 44 ∨ c = 47 ∨ c = 58
      ∨ c = 59 ∨ c = 61 ∨ c = 63 ∨ c = 64 ∨ c = 91 ∨ c = 93 then true
  else if c = 45 ∨ c = 46 ∨ c = 95 ∨ c = 126 then true
  else if c = 37 then
    match rest with
    | h1 :: h2 :: _ => isHex h1 && isHex h2
    | _ => false
  else (97 ≤ c && c ≤ 122) || (65 ≤ c && c ≤ 90) || (48 ≤ c && c ≤ 57)

/-- The loop of `processURLOnto(s, true, b)` over the bytes of `s`: a byte is
copied or written as `%` and two hexadecimal digits. -/
def processURLOnto : List Nat → List Char
  | [] => []
  | c :: rest =>
    (if urlKeeps c rest then [Char.ofNat c] else ['%', hexDigit (c / 16), hexDigit (c % 16)])
      ++ processURLOnto rest

/-- The escaper `_html_template_urlnormalizer` on a plain string. -/
def urlNormalizer (s : String) : String :=
  ⟨processURLOnto (s.data.flatMap utf8Bytes)⟩

/-! ## The figure renderer -/

/-- The data the figure template is executed on. -/
structure figureData where
  Src : String
  Caption : String

/-- Execution of `figureTemplate`.  The action in the `src` attribute runs
through the URL filter, the URL normalizer and the attribute escaper; the
action inside `with .Caption` runs through the HTML escaper and is skipped for
an empty caption.  Writing to a `bytes.Buffer` does not fail. -/
def figureTemplate_Execute (d : figureData) : Except String String :=
  .ok ("\n<figure>\n  <img src=\"" ++ attrEscaper (urlNormalizer (urlFilter d.Src)) ++ "\">\n  "
    ++ (if d.Caption ≠ "" then "<figcaption>" ++ htmlEscaper d.Caption ++ "</figcaption>" else "")
    ++ "\n</figure>\n")

/-- The function `renderImage`. -/
def renderImage (src : String) (caption : String) : Except String String :=
  match figureTemplate_Execute { Src := src, Caption := caption } with
  | .error err => .error err
  | .ok buf => .ok buf

/-! ## The card handlers -/

/-- The handler registered for `image` cards. -/
def imageCard (useFigure : Bool) (payload : Value) : Except Fault String :=
  match assertMap payload with
  | .error f => .error f
  | .ok data =>
    match assertString (data.lookup "src") with
    | .error f => .error f
    | .ok src =>
      let caption : Value :=
        match data.lookup "caption" with
        | some c => c
        | none => .str ""
      if useFigure then
        match assertString (some caption) with
        | .error f => .error f
        | .ok c =>
          match renderImage src c with
          | .error err => .error (.renderImage err)
          | .ok buf => .ok buf
      else
        .ok ("![" ++ fmtS caption ++ "](" ++ fmtS (.str src) ++ ")\n")

/-- The loop of the `gallery` handler over the remaining images, `result`
being what the string builder holds so far. -/
def galleryLoop (useFigure : Bool) : List Value → String → Except Fault String
  | [], result => .ok result
  | imageData :: rest, result =>
    match assertMap imageData with
    | .error f => .error f
    | .ok image =>
      match assertString (image.lookup "src") with
      | .error f => .error f
      | .ok src =>
        if useFigure then
          match renderImage src "" with
          | .error err => .error (.renderImage err)
          | .ok buf => galleryLoop useFigure rest (result ++ buf)
        else
          galleryLoop useFigure rest (result ++ ("![" ++ fmtS (.str "") ++ "](" ++ fmtS (.str src) ++ ")\n"))

/-- The handler registered for `gallery` cards. -/
def galleryCard (useFigure : Bool) (payload : Value) : Except Fault String :=
  match assertMap payload with
  | .error f => .error f
  | .ok data =>
    match assertSlice (data.lookup "images") with
    | .error f => .error f
    | .ok images => galleryLoop useFigure images ""

/-- The handler registered for `markdown` cards. -/
def markdownCard (payload : Value) : Except Fault String :=
  match assertMap payload with
  | .error f => .error f
  | .ok m => assertString (m.lookup "markdown")

/-- The handler registered for `html` cards. -/
def htmlCard (payload : Value) : Except Fault String :=
  match assertMap payload with
  | .error f => .error f
  | .ok m => assertString (m.lookup "html")

/-- The dispatch table built by the four `WithCard` calls; it is keyed by the
card-type name. -/
def cardTable (useFigure : Bool) (name : String) : Option (Value → Except Fault String) :=
  if name = "image" then some (imageCard useFigure)
  else if name = "gallery" then some (galleryCard useFigure)
  else if name = "markdown" then some markdownCard
  else if name = "html" then some htmlCard
  else none

/-! ## The document pipeline -/

/-- Modelled from the spec: the sections of a Mobiledoc document as the external
renderer walks them (§4.3 step 4).  A `text` section stands for a markup or list
section, carried by the Markdown the renderer emits for it; a `card` section
names its card type and carries its payload. -/
inductive Section where
  | text (markdown : String)
  | card (name : String) (payload : Value)

/-- The envelope `Document`.  The field `Mobiledoc` is a serialized document the
program never inspects, it only hands it to the external library; it is
carried by what that library's parser makes of it, an error or the sections. -/
structure Document where
  Title : String
  Mobiledoc : Except String (List Section)

/-- An `io.Writer`: given the strings passed to the earlier `Write` calls and
the string passed now, the error of this call, if it fails. -/
abbrev Writer := List String → String → Option String

/-- How a call ends: it returns (an error or `nil`), or a panic unwinds it. -/
inductive Outcome where
  | returned (err : Option String)
  | panicked (fault : Fault)

/-- A run: the strings handed to the output stream, in order, and how it ended. -/
structure Run where
  writes : List String
  outcome : Outcome

/-- Modelled from the spec: the walk of the external renderer over the sections
(§4.3 step 4), `calls` being the writes made so far.  The Markdown of a text
section is written; for a card section the handler registered under its name is
invoked and the string it returns is written verbatim at that position; an
unknown card type is an error of the renderer; a handler's panic is not
recovered; a failed write ends the rendering with that error. -/
def renderSections (cards : String → Option (Value → Except Fault String)) (w : Writer) :
    List Section → List String → Run
  | [], calls => { writes := calls, outcome := .returned none }
  | .text md :: rest, calls =>
    match w calls md with
    | some err => { writes := calls ++ [md], outcome := .returned (some err) }
    | none => renderSections cards w rest (calls ++ [md])
  | .card name payload :: rest, calls =>
    match cards name with
    | none => { writes := calls, outcome := .returned (some ("unknown card: " ++ name)) }
    | some handler =>
      match handler payload with
      | .error fault => { writes := calls, outcome := .panicked fault }
      | .ok s =>
        match w calls s with
        | some err => { writes := calls ++ [s], outcome := .returned (some err) }
        | none => renderSections cards w rest (calls ++ [s])

/-- Modelled from the spec: the method `Render` of the external document model
(§4.3 steps 3 and 4): a document that does not parse is an error, otherwise the
sections are rendered in order. -/
def Render (cards : String → Option (Value → Except Fault String))
    (mobiledoc : Except String (List Section)) (w : Writer) (calls : List String) : Run :=
  match mobiledoc with
  | .error err => { writes := calls, outcome := .returned (some err) }
  | .ok sections => renderSections cards w sections calls

/-- The function `convert`.  The reader `r` is carried by what
`json.NewDecoder(r).Decode(&doc)` yields on it: an error or the envelope. -/
def convert (r : Except String Document) (w : Writer) (useFigure : Bool) : Run :=
  match r with
  | .error err => { writes := [], outcome := .returned (some ("error decoding input JSON: " ++ err)) }
  | .ok doc =>
    if doc.Title ≠ "" then
      match w [] ("# " ++ doc.Title ++ "\n\n") with
      | some err =>
        { writes := ["# " ++ doc.Title ++ "\n\n"],
          outcome := .returned (some ("cannot write to output: " ++ err)) }
      | none => Render (cardTable useFigure) doc.Mobiledoc w ["# " ++ doc.Title ++ "\n\n"]
    else Render (cardTable useFigure) doc.Mobiledoc w []

/-! ## Auxiliary definitions for the statements -/

/-- The Markdown image link for `src` with an empty caption. -/
def linkText (src : String) : String :=
  "![" ++ fmtS (.str "") ++ "](" ++ fmtS (.str src) ++ ")\n"

/-- The figure fragment the template yields for `src` without a caption. -/
def figureText (src : String) : String :=
  "\n<figure>\n  <img src=\"" ++ attrEscaper (urlNormalizer (urlFilter src)) ++ "\">\n  " ++ ""
    ++ "\n</figure>\n"

/-- What one gallery image contributes to the result. -/
def imageText (useFigure : Bool) (src : String) : String :=
  if useFigure then figureText src else linkText src

/-- Whether `fields[key]` holds a string. -/
def hasString (fields : List (String × Value)) (key : String) : Bool :=
  match fields.lookup key with
  | some (.str _) => true
  | _ => false

/-- The shape the `image` handler needs in the given figure mode: a map whose
`src` is a string and, in figure mode, whose `caption` is absent or a string. -/
def imageShape (useFigure : Bool) : Value → Bool
  | .object fields =>
    hasString fields "src"
      && (!useFigure || (fields.lookup "caption").isNone || hasString fields "caption")
  | _ => false

/-- The shape of a gallery entry: a map whose `src` is a string. -/
def entryShape : Value → Bool
  | .object fields => hasString fields "src"
  | _ => false

/-- The shape the `gallery` handler needs: a map whose `images` is a list of
well-shaped entries. -/
def galleryShape : Value → Bool
  | .object fields =>
    match fields.lookup "images" with
    | some (.list images) => images.all entryShape
    | _ => false
  | _ => false

/-- The shape the `markdown` handler needs: a map whose `markdown` is a string. -/
def markdownShape : Value → Bool
  | .object fields => hasString fields "markdown"
  | _ => false

/-- The shape the `html` handler needs: a map whose `html` is a string. -/
def htmlShape : Value → Bool
  | .object fields => hasString fields "html"
  | _ => false

/-- A character `htmlReplacer` copies: it has no entry in the replacement
table (it is none of NUL, `"`, `&`, the apostrophe, `+`, `<`, `>`). -/
def htmlPlain (c : Char) : Bool :=
  !([0, 34, 38, 39, 43, 60, 62].contains c.toNat)

/-- A character that passes the URL normalizer and the attribute escaper
unchanged wherever it stands: an ASCII letter or digit, or one of
`! # $ * , / : ; = ? @ [ ] - . _ ~`. -/
def urlPlain (c : Char) : Bool :=
  (97 ≤ c.toNat && c.toNat ≤ 122) || (65 ≤ c.toNat && c.toNat ≤ 90)
    || (48 ≤ c.toNat && c.toNat ≤ 57)
    || [33, 35, 36, 42, 44, 47, 58, 59, 61, 63, 64, 91, 93, 45, 46, 95, 126].contains c.toNat

/-- The characters of the opening tag `<figcaption>`. -/
def figcaptionTag : List Char := ['<', 'f', 'i', 'g', 'c', 'a', 'p', 't', 'i', 'o', 'n', '>']

/-- The string the renderer writes for a section once it gets to it: the
Markdown of a text section, or what the registered handler returns for a card;
`none` for an unknown card type or a handler that faults. -/
def sectionText (cards : String → Option (Value → Except Fault String)) : Section → Option String
  | .text md => some md
  | .card name payload =>
    match cards name with
    | none => none
    | some handler =>
      match handler payload with
      | .ok s => some s
      | .error _ => none

/-- The sections of a serialized document, none when it does not parse. -/
def sectionsOf : Except String (List Section) → List Section
  | .ok sections => sections
  | .error _ => []

/-- The write of the title heading, made for a non-empty title only. -/
def titleWrites (title : String) : List String :=
  if title ≠ "" then ["# " ++ title ++ "\n\n"] else []

/-- A writer that accepts every write. -/
def acceptAll : Writer := fun _ _ => none

/-- Whether the writer, after the earlier writes `calls`, accepts each of the
strings `ws` written one after the other. -/
def acceptsFrom (w : Writer) : List String → List String → Bool
  | _, [] => true
  | calls, s :: rest => (w calls s).isNone && acceptsFrom w (calls ++ [s]) rest

/-! ## Strings -/

theorem join_cons (x : String) (xs : List String) : String.join (x :: xs) = x ++ String.join xs := by
  apply String.ext
  simp [String.data_join, String.data_append]

theorem join_nil : String.join [] = "" := rfl

theorem fmtS_str (s : String) : fmtS (.str s) = s := rfl

/-! ## The Markdown link branch and the pass-through cards -/

theorem renderImage_empty (src : String) : renderImage src "" = .ok (figureText src) := by
  simp [renderImage, figureTemplate_Execute, figureText]

theorem imageCard_empty_caption (useFigure : Bool) (src : String) :
    imageCard useFigure (.object [("src", .str src), ("caption", .str "")])
      = .ok (imageText useFigure src) := by
  cases useFigure
  · simp [imageCard, assertMap, assertString, List.lookup, imageText, linkText]
  · simp [imageCard, assertMap, assertString, List.lookup, imageText, renderImage_empty]

theorem galleryLoop_ok (useFigure : Bool) (entries : List (List (String × Value)))
    (srcs : List String)
    (h : List.Forall₂ (fun e s => e.lookup "src" = some (.str s)) entries srcs) :
    ∀ acc : String, galleryLoop useFigure (entries.map .object) acc
      = .ok (acc ++ String.join (srcs.map (imageText useFigure))) := by
  induction h with
  | nil => intro acc; simp [galleryLoop, join_nil]
  | cons hes _ ih =>
    intro acc
    cases useFigure
    · simp [galleryLoop, assertMap, assertString, hes, ih, imageText, linkText, join_cons,
        String.append_assoc]
    · simp [galleryLoop, assertMap, assertString, hes, ih, imageText, renderImage_empty, join_cons,
        String.append_assoc]

/-- C1: with figure mode off the `image` handler returns `![` + caption + `](`
+ src + `)` and a newline, both fields verbatim; without a `caption` key the
caption is empty. -/
theorem imageCard_link (fields : List (String × Value)) (S C : String)
    (hsrc : fields.lookup "src" = some (.str S)) :
    (fields.lookup "caption" = some (.str C) →
      imageCard false (.object fields) = .ok ("![" ++ C ++ "](" ++ S ++ ")\n")) ∧
    (fields.lookup "caption" = none →
      imageCard false (.object fields) = .ok ("![](" ++ S ++ ")\n")) := by
  constructor
  · intro hc
    simp [imageCard, assertMap, assertString, hsrc, hc, fmtS, printValue]
  · intro hc
    simp [imageCard, assertMap, assertString, hsrc, hc, fmtS, printValue]

theorem imageCard_link_witness :
    imageCard false (.object [("src", .str "a(b).png"), ("caption", .str "x]*y")])
        = .ok ("![" ++ "x]*y" ++ "](" ++ "a(b).png" ++ ")\n")
      ∧ imageCard false (.object [("src", .str "a(b).png"), ("row", .number "1")])
        = .ok ("![](" ++ "a(b).png" ++ ")\n") :=
  ⟨(imageCard_link [("src", .str "a(b).png"), ("caption", .str "x]*y")] "a(b).png" "x]*y" rfl).1 rfl,
   (imageCard_link [("src", .str "a(b).png"), ("row", .number "1")] "a(b).png" "" rfl).2 rfl⟩

/-- C2: for a list of gallery entries, each a map with a string `src`, the
`gallery` handler returns the concatenation, in order, of what the `image`
handler returns for `src` with an empty caption in the same figure mode; with
figure mode off that is the concatenation of the links `![](src)`.  The other
fields of an entry, and of the payload, play no part. -/
theorem galleryCard_concat (useFigure : Bool) (fields : List (String × Value))
    (entries : List (List (String × Value))) (srcs : List String)
    (himages : fields.lookup "images" = some (.list (entries.map .object)))
    (hsrcs : List.Forall₂ (fun e s => e.lookup "src" = some (.str s)) entries srcs) :
    ∃ outs : List String,
      List.Forall₂ (fun s o =>
        imageCard useFigure (.object [("src", .str s), ("caption", .str "")]) = .ok o) srcs outs
      ∧ galleryCard useFigure (.object fields) = .ok (String.join outs)
      ∧ (useFigure = false →
          galleryCard useFigure (.object fields)
            = .ok (String.join (srcs.map fun s => "![](" ++ s ++ ")\n"))) := by
  have hg : galleryCard useFigure (.object fields)
      = .ok (String.join (srcs.map (imageText useFigure))) := by
    simp [galleryCard, assertMap, assertSlice, himages, galleryLoop_ok useFigure entries srcs hsrcs]
  refine ⟨srcs.map (imageText useFigure), ?_, hg, ?_⟩
  · rw [List.forall₂_map_right_iff]
    exact List.forall₂_same.mpr (fun s _ => imageCard_empty_caption useFigure s)
  · intro hoff
    subst hoff
    rw [hg]
    congr 2

theorem galleryCard_concat_witness :
    ∃ outs : List String,
      List.Forall₂ (fun s o =>
        imageCard false (.object [("src", .str s), ("caption", .str "")]) = .ok o) ["u", "v"] outs
      ∧ galleryCard false (.object [("images", .list ([[("src", .str "u"), ("row", .number "0")],
            [("fileName", .str "f"), ("src", .str "v")]].map .object))]) = .ok (String.join outs)
      ∧ (false = false →
          galleryCard false (.object [("images", .list ([[("src", .str "u"), ("row", .number "0")],
            [("fileName", .str "f"), ("src", .str "v")]].map .object))])
            = .ok (String.join (["u", "v"].map fun s => "![](" ++ s ++ ")\n"))) :=
  galleryCard_concat false _ [[("src", .str "u"), ("row", .number "0")],
    [("fileName", .str "f"), ("src", .str "v")]] ["u", "v"] rfl
    (List.Forall₂.cons rfl (List.Forall₂.cons rfl List.Forall₂.nil))

/-- C3: the `markdown` handler returns the `markdown` field and the `html`
handler returns the `html` field, exactly as they are, whatever other keys the
payload has; neither handler looks at the figure mode. -/
theorem passthrough_cards (fields : List (String × Value)) (x : String) :
    (fields.lookup "markdown" = some (.str x) → markdownCard (.object fields) = .ok x) ∧
    (fields.lookup "html" = some (.str x) → htmlCard (.object fields) = .ok x) ∧
    (∀ useFigure : Bool,
      cardTable useFigure "markdown" = some markdownCard ∧
      cardTable useFigure "html" = some htmlCard) := by
  refine ⟨?_, ?_, ?_⟩
  · intro h
    simp [markdownCard, assertMap, assertString, h]
  · intro h
    simp [htmlCard, assertMap, assertString, h]
  · intro useFigure
    simp [cardTable]

theorem passthrough_cards_witness :
    markdownCard (.object [("x", .null), ("markdown", .str "**x** <b>&")]) = .ok "**x** <b>&"
      ∧ htmlCard (.object [("html", .str "<p>a & b</p>"), ("y", .bool true)]) = .ok "<p>a & b</p>" :=
  ⟨(passthrough_cards [("x", .null), ("markdown", .str "**x** <b>&")] "**x** <b>&").1 rfl,
   (passthrough_cards [("html", .str "<p>a & b</p>"), ("y", .bool true)] "<p>a & b</p>").2.1 rfl⟩

/-! ## Payloads of unexpected shape -/

theorem assertString_of_not_hasString (fields : List (String × Value)) (key : String)
    (h : hasString fields key = false) :
    assertString (fields.lookup key) = .error .typeAssertion := by
  unfold hasString at h
  cases hk : fields.lookup key with
  | none => rfl
  | some v => cases v <;> simp_all [assertString]

theorem assertString_of_hasString (fields : List (String × Value)) (key : String)
    (h : hasString fields key = true) :
    ∃ s, fields.lookup key = some (.str s) := by
  unfold hasString at h
  cases hk : fields.lookup key with
  | none => simp_all
  | some v => cases v <;> simp_all

theorem galleryLoop_fault (useFigure : Bool) (images : List Value)
    (h : images.all entryShape = false) :
    ∀ acc : String, galleryLoop useFigure images acc = .error .typeAssertion := by
  induction images with
  | nil => simp at h
  | cons e rest ih =>
    intro acc
    cases e with
    | object fields =>
      cases hs : hasString fields "src" with
      | false =>
        simp [galleryLoop, assertMap, assertString_of_not_hasString fields "src" hs]
      | true =>
        obtain ⟨s, hsrc⟩ := assertString_of_hasString fields "src" hs
        have hrest : rest.all entryShape = false := by
          simpa [List.all_cons, entryShape, hs] using h
        cases useFigure
        · simp [galleryLoop, assertMap, assertString, hsrc, ih hrest]
        · simp [galleryLoop, assertMap, assertString, hsrc, renderImage_empty, ih hrest]
    | _ => simp [galleryLoop, assertMap]

/-- Each handler panics with a failed type assertion whenever its payload is
not of the shape it needs (not a map; `src`, `markdown` or `html` absent or not
a string; `images` absent or not a list; a gallery entry that is not a map with
a string `src`; in figure mode, a `caption` that is present and not a string).
With figure mode off the `image` handler hands the caption to `Sprintf`
unasserted and returns the link with the caption printed by `%s`. -/
theorem card_shape_faults (useFigure : Bool) (payload : Value) :
    (imageShape useFigure payload = false →
      imageCard useFigure payload = .error .typeAssertion) ∧
    (galleryShape payload = false → galleryCard useFigure payload = .error .typeAssertion) ∧
    (markdownShape payload = false → markdownCard payload = .error .typeAssertion) ∧
    (htmlShape payload = false → htmlCard payload = .error .typeAssertion) ∧
    (∀ (fields : List (String × Value)) (S : String) (c : Value),
      payload = .object fields → fields.lookup "src" = some (.str S) →
      fields.lookup "caption" = some c →
      imageCard false payload = .ok ("![" ++ fmtS c ++ "](" ++ S ++ ")\n")) := by
  refine ⟨?_, ?_, ?_, ?_, ?_⟩
  · intro h
    cases payload with
    | object fields =>
      cases hs : hasString fields "src" with
      | false => simp [imageCard, assertMap, assertString_of_not_hasString fields "src" hs]
      | true =>
        obtain ⟨s, hsrc⟩ := assertString_of_hasString fields "src" hs
        cases useFigure with
        | false => simp [imageShape, hs] at h
        | true =>
          simp only [imageShape, hs, Bool.not_true, Bool.false_or, Bool.true_and,
            Bool.or_eq_false_iff] at h
          obtain ⟨hsome, hcap⟩ := h
          cases hc : fields.lookup "caption" with
          | none => simp [hc] at hsome
          | some c =>
            have hfault := assertString_of_not_hasString fields "caption" hcap
            rw [hc] at hfault
            have hsrc2 : assertString (fields.lookup "src") = .ok s := by rw [hsrc]; rfl
            simp only [imageCard, assertMap, hsrc2, hc, hfault, if_true]
    | _ => simp [imageCard, assertMap]
  · intro h
    cases payload with
    | object fields =>
      cases hi : fields.lookup "images" with
      | none => simp [galleryCard, assertMap, assertSlice, hi]
      | some v =>
        cases v with
        | list images =>
          have hall : images.all entryShape = false := by simpa [galleryShape, hi] using h
          simp [galleryCard, assertMap, assertSlice, hi, galleryLoop_fault useFigure images hall]
        | _ => simp [galleryCard, assertMap, assertSlice, hi]
    | _ => simp [galleryCard, assertMap]
  · intro h
    cases payload with
    | object fields =>
      simp [markdownCard, assertMap, assertString_of_not_hasString fields "markdown" h]
    | _ => simp [markdownCard, assertMap]
  · intro h
    cases payload with
    | object fields =>
      simp [htmlCard, assertMap, assertString_of_not_hasString fields "html" h]
    | _ => simp [htmlCard, assertMap]
  · intro fields S c hp hsrc hc
    subst hp
    simp [imageCard, assertMap, assertString, hsrc, hc, fmtS_str]

theorem card_shape_faults_witness :
    imageCard true (.object [("src", .str "a"), ("caption", .number "3")]) = .error .typeAssertion
      ∧ galleryCard false (.object [("images", .list [.object [("src", .str "a")], .str "b"])])
          = .error .typeAssertion
      ∧ markdownCard (.list []) = .error .typeAssertion
      ∧ htmlCard (.object [("markdown", .str "x")]) = .error .typeAssertion
      ∧ imageCard false (.object [("src", .str "a"), ("caption", .number "3")])
          = .ok ("![" ++ fmtS (.number "3") ++ "](" ++ "a" ++ ")\n") :=
  ⟨(card_shape_faults true (.object [("src", .str "a"), ("caption", .number "3")])).1 rfl,
   (card_shape_faults false
      (.object [("images", .list [.object [("src", .str "a")], .str "b"])])).2.1 rfl,
   (card_shape_faults false (.list [])).2.2.1 rfl,
   (card_shape_faults false (.object [("markdown", .str "x")])).2.2.2.1 rfl,
   (card_shape_faults false (.object [("src", .str "a"), ("caption", .number "3")])).2.2.2.2
      _ "a" (.number "3") rfl rfl rfl⟩

/-- C8: the code at the failing input.  For the payload with the src `a.png`
and the caption `true`, a caption that is present and not a string, the `image`
handler in figure mode panics with a failed type assertion, as the claim says,
while with figure mode off it does not panic: it returns the link with the
bad-operand marker of `%s` in the place of the caption. -/
theorem image_bad_caption_returns :
    List.lookup "caption" [("src", Value.str "a.png"), ("caption", Value.bool true)]
        = some (Value.bool true)
      ∧ imageCard true (.object [("src", .str "a.png"), ("caption", .bool true)])
        = .error .typeAssertion
      ∧ imageCard false (.object [("src", .str "a.png"), ("caption", .bool true)])
        = .ok "![%!s(bool=true)](a.png)\n"
      ∧ imageCard false (.object [("src", .str "a.png"), ("caption", .bool true)])
        ≠ .error .typeAssertion := by
  refine ⟨rfl, rfl, rfl, ?_⟩
  intro h
  cases h

/-! ## The escapers of the figure template -/

theorem urlPlain_keeps (c : Char) (h : urlPlain c = true) (rest : List Nat) :
    utf8Bytes c = [c.toNat] ∧ urlKeeps c.toNat rest = true ∧ htmlPlain c = true := by
  simp [urlPlain] at h
  refine ⟨?_, ?_, ?_⟩
  · have : c.toNat < 128 := by omega
    simp [utf8Bytes, this]
  · unfold urlKeeps
    split_ifs <;> first | rfl | omega | (simp; omega)
  · simp [htmlPlain]
    omega

theorem htmlReplacerChars_plain (l : List Char) (h : ∀ c ∈ l, htmlPlain c = true) :
    htmlReplacerChars l = l := by
  induction l with
  | nil => rfl
  | cons c cs ih =>
    have hc : htmlReplacementTable c.toNat = none := by
      have := h c (List.mem_cons_self _ _)
      simp [htmlPlain] at this
      simp [htmlReplacementTable, this]
    simp [htmlReplacerChars, hc, ih (fun x hx => h x (List.mem_cons_of_mem _ hx))]

theorem processURLOnto_plain (l : List Char) (h : ∀ c ∈ l, urlPlain c = true) :
    processURLOnto (l.flatMap utf8Bytes) = l := by
  induction l with
  | nil => rfl
  | cons c cs ih =>
    obtain ⟨h1, h2, _⟩ := urlPlain_keeps c (h c (List.mem_cons_self _ _)) (cs.flatMap utf8Bytes)
    simp [List.flatMap_cons, h1, processURLOnto, h2, ih (fun x hx => h x (List.mem_cons_of_mem _ hx))]

theorem htmlReplacerChars_no_lt (l : List Char) : ∀ c ∈ htmlReplacerChars l, c ≠ '<' := by
  induction l with
  | nil => simp [htmlReplacerChars]
  | cons c cs ih =>
    intro x hx
    simp only [htmlReplacerChars, List.mem_append] at hx
    rcases hx with hx | hx
    · unfold htmlReplacementTable at hx
      split_ifs at hx <;> simp at hx
      all_goals (intro hlt; subst hlt)
      all_goals first | exact absurd hx (by decide) | (subst hx; simp_all)
    · exact ih x hx

theorem htmlEscaper_plain (s : String) (h : s.data.all htmlPlain = true) : htmlEscaper s = s := by
  have hall : ∀ c ∈ s.data, htmlPlain c = true := by simpa [List.all_eq_true] using h
  simp [htmlEscaper, htmlReplacer, htmlReplacerChars_plain s.data hall]

theorem src_plain (s : String) (hsafe : isSafeURL s = true) (h : s.data.all urlPlain = true) :
    attrEscaper (urlNormalizer (urlFilter s)) = s := by
  have hall : ∀ c ∈ s.data, urlPlain c = true := by simpa [List.all_eq_true] using h
  have hhtml : ∀ c ∈ s.data, htmlPlain c = true := fun c hc => (urlPlain_keeps c (hall c hc) []).2.2
  simp [attrEscaper, htmlReplacer, urlNormalizer, urlFilter, hsafe, processURLOnto_plain s.data hall,
    htmlReplacerChars_plain s.data hhtml]

/-! ## Where the tag `<figcaption>` cannot occur -/

theorem figcaptionTag_eq : "<figcaption>".data = figcaptionTag := by decide

theorem figureHead_data : ("\n<figure>\n  <img src=\"").data =
    ['\n', '<', 'f', 'i', 'g', 'u', 'r', 'e', '>', '\n', ' ', ' ', '<', 'i', 'm', 'g', ' ',
      's', 'r', 'c', '=', Char.ofNat 34] := by decide

theorem figureTail_data : ("\">\n  " ++ "" ++ "\n</figure>\n").data =
    [Char.ofNat 34, '>', '\n', ' ', ' ', '\n', '<', '/', 'f', 'i', 'g', 'u', 'r', 'e', '>', '\n'] := by
  decide

theorem figcaption_skip_head (X : List Char) :
    figcaptionTag <:+: ("\n<figure>\n  <img src=\"").data ++ X ↔ figcaptionTag <:+: X := by
  rw [figureHead_data]
  simp [figcaptionTag, List.infix_cons_iff, List.cons_prefix_cons]

theorem figcaption_skip_tail (X : List Char) :
    figcaptionTag <:+: ("\">\n  " ++ "" ++ "\n</figure>\n").data ++ X ↔ figcaptionTag <:+: X := by
  rw [figureTail_data]
  simp [figcaptionTag, List.infix_cons_iff, List.cons_prefix_cons]

theorem figcaption_skip_mid (m : List Char) (hm : ∀ c ∈ m, c ≠ '<') (X : List Char) :
    figcaptionTag <:+: m ++ X ↔ figcaptionTag <:+: X := by
  induction m with
  | nil => simp
  | cons c cs ih =>
    have hc : ¬ ('<' = c) := fun h => hm c (List.mem_cons_self _ _) h.symm
    rw [List.cons_append, List.infix_cons_iff, ih (fun x hx => hm x (List.mem_cons_of_mem _ hx))]
    simp [figcaptionTag, List.cons_prefix_cons, hc]

theorem figureText_data (src : String) :
    (figureText src).data = ("\n<figure>\n  <img src=\"").data
      ++ ((attrEscaper (urlNormalizer (urlFilter src))).data
        ++ ("\">\n  " ++ "" ++ "\n</figure>\n").data) := by
  simp [figureText, String.data_append, List.append_assoc]

theorem figcaption_skip_figure (src : String) (X : List Char) :
    figcaptionTag <:+: (figureText src).data ++ X ↔ figcaptionTag <:+: X := by
  have hmid : ∀ c ∈ (attrEscaper (urlNormalizer (urlFilter src))).data, c ≠ '<' :=
    htmlReplacerChars_no_lt _
  rw [figureText_data, List.append_assoc, List.append_assoc, figcaption_skip_head,
    figcaption_skip_mid _ hmid, figcaption_skip_tail]

theorem figcaption_not_in_figures (srcs : List String) :
    ¬ figcaptionTag <:+: (String.join (srcs.map figureText)).data := by
  induction srcs with
  | nil => simp [join_nil, figcaptionTag]
  | cons s rest ih =>
    rw [List.map_cons, join_cons, String.data_append, figcaption_skip_figure]
    exact ih

theorem infix_of_eq {l s p t : List Char} (h : l = s ++ (p ++ t)) : p <:+: l :=
  ⟨s, t, by rw [h, List.append_assoc]⟩

/-! ## Figure mode -/

/-- C10: `renderImage(S, "")` succeeds for every `S`, and the figure fragment it
returns holds no `<figcaption>`; so the `image` card in figure mode with an
absent or empty caption returns that fragment, and the result of a `gallery`
card in figure mode holds no `<figcaption>` either. -/
theorem figure_without_caption :
    (∀ S : String, ∃ out : String,
      renderImage S "" = .ok out
      ∧ "<figure>".data <:+: out.data
      ∧ ¬ "<figcaption>".data <:+: out.data
      ∧ ∀ fields : List (String × Value), fields.lookup "src" = some (.str S) →
          (fields.lookup "caption" = none ∨ fields.lookup "caption" = some (.str "")) →
          imageCard true (.object fields) = .ok out)
    ∧ (∀ (fields : List (String × Value)) (entries : List (List (String × Value)))
        (srcs : List String),
        fields.lookup "images" = some (.list (entries.map .object)) →
        List.Forall₂ (fun e s => e.lookup "src" = some (.str s)) entries srcs →
        ∃ out : String, galleryCard true (.object fields) = .ok out
          ∧ ¬ "<figcaption>".data <:+: out.data) := by
  constructor
  · intro S
    refine ⟨figureText S, renderImage_empty S, ?_, ?_, ?_⟩
    · apply infix_of_eq (s := "\n".data)
        (t := ("\n  <img src=\"").data ++ ((attrEscaper (urlNormalizer (urlFilter S))).data
          ++ ("\">\n  " ++ "" ++ "\n</figure>\n").data))
      rw [figureText_data]
      have hsplit : ("\n<figure>\n  <img src=\"").data
          = "\n".data ++ ("<figure>".data ++ ("\n  <img src=\"").data) := by decide
      rw [hsplit]
      simp only [List.append_assoc]
    · rw [figcaptionTag_eq]
      intro h
      have h2 : figcaptionTag <:+: (figureText S).data ++ [] := by simpa using h
      rw [figcaption_skip_figure] at h2
      simp [figcaptionTag] at h2
    · intro fields hsrc hcap
      rcases hcap with hcap | hcap
      · simp [imageCard, assertMap, assertString, hsrc, hcap, renderImage_empty]
      · simp [imageCard, assertMap, assertString, hsrc, hcap, renderImage_empty]
  · intro fields entries srcs himages hsrcs
    refine ⟨String.join (srcs.map figureText), ?_, ?_⟩
    · have := galleryLoop_ok true entries srcs hsrcs ""
      have himg : imageText true = figureText := rfl
      simp [galleryCard, assertMap, assertSlice, himages, this, himg]
    · rw [figcaptionTag_eq]
      exact figcaption_not_in_figures srcs

theorem figure_without_caption_witness :
    (∃ out : String,
      renderImage "<figcaption>" "" = .ok out
      ∧ "<figure>".data <:+: out.data
      ∧ ¬ "<figcaption>".data <:+: out.data
      ∧ ∀ fields : List (String × Value), fields.lookup "src" = some (.str "<figcaption>") →
          (fields.lookup "caption" = none ∨ fields.lookup "caption" = some (.str "")) →
          imageCard true (.object fields) = .ok out)
    ∧ (∃ out : String,
        galleryCard true (.object [("images", .list ([[("src", .str "u.png"), ("width", .number "3")],
          [("src", .str "<figcaption>")]].map .object))]) = .ok out
        ∧ ¬ "<figcaption>".data <:+: out.data) :=
  ⟨figure_without_caption.1 "<figcaption>",
   figure_without_caption.2 _ [[("src", .str "u.png"), ("width", .number "3")],
      [("src", .str "<figcaption>")]] ["u.png", "<figcaption>"] rfl
      (List.Forall₂.cons rfl (List.Forall₂.cons rfl List.Forall₂.nil))⟩

/-- C5, as the code has it: for a string `src` S and a non-empty string caption
C the `image` handler in figure mode returns the output of `renderImage(S, C)`,
a `<figure>` block that holds `<img src="S1">` and `<figcaption>C1</figcaption>`,
where S1 is S after the URL filter, the URL normalizer and the attribute
escaper of the template engine and C1 is C after its HTML escaper.  S1 is S
itself when S passes `isSafeURL` and consists of ASCII letters, digits and
`! # $ * , / : ; = ? @ [ ] - . _ ~`; C1 is C itself when C has none of NUL,
`"`, `&`, the apostrophe, `+`, `<`, `>`. -/
theorem image_figure_escaped (fields : List (String × Value)) (S C : String)
    (hsrc : fields.lookup "src" = some (.str S))
    (hcap : fields.lookup "caption" = some (.str C)) (hne : C ≠ "") :
    ∃ out : String,
      renderImage S C = .ok out
      ∧ imageCard true (.object fields) = .ok out
      ∧ "<figure>".data <:+: out.data
      ∧ ("<img src=\"" ++ attrEscaper (urlNormalizer (urlFilter S)) ++ "\">").data <:+: out.data
      ∧ ("<figcaption>" ++ htmlEscaper C ++ "</figcaption>").data <:+: out.data
      ∧ (isSafeURL S = true → S.data.all urlPlain = true →
          attrEscaper (urlNormalizer (urlFilter S)) = S)
      ∧ (C.data.all htmlPlain = true → htmlEscaper C = C) := by
  have hr : renderImage S C = .ok ("\n<figure>\n  <img src=\""
      ++ attrEscaper (urlNormalizer (urlFilter S)) ++ "\">\n  "
      ++ ("<figcaption>" ++ htmlEscaper C ++ "</figcaption>") ++ "\n</figure>\n") := by
    simp [renderImage, figureTemplate_Execute, hne]
  refine ⟨_, hr, ?_, ?_, ?_, ?_, src_plain S, htmlEscaper_plain C⟩
  · simp [imageCard, assertMap, assertString, hsrc, hcap, hr]
  · apply infix_of_eq (s := "\n".data)
      (t := ("\n  <img src=\"").data ++ ((attrEscaper (urlNormalizer (urlFilter S))).data
        ++ (("\">\n  ").data ++ (("<figcaption>" ++ htmlEscaper C ++ "</figcaption>").data
          ++ ("\n</figure>\n").data))))
    simp [String.data_append]
  · apply infix_of_eq (s := ("\n<figure>\n  ").data)
      (t := ("\n  ").data ++ (("<figcaption>" ++ htmlEscaper C ++ "</figcaption>").data
          ++ ("\n</figure>\n").data))
    simp [String.data_append]
  · apply infix_of_eq (s := ("\n<figure>\n  <img src=\""
        ++ attrEscaper (urlNormalizer (urlFilter S)) ++ "\">\n  ").data)
      (t := ("\n</figure>\n").data)
    simp only [String.data_append, List.append_assoc]

theorem image_figure_escaped_witness :
    ∃ out : String,
      renderImage "https://h.example/a_b/i-1.png?w=1;h=2" "A cat, sleeping." = .ok out
      ∧ imageCard true (.object [("src", .str "https://h.example/a_b/i-1.png?w=1;h=2"),
          ("caption", .str "A cat, sleeping.")]) = .ok out
      ∧ "<figure>".data <:+: out.data
      ∧ ("<img src=\""
          ++ attrEscaper (urlNormalizer (urlFilter "https://h.example/a_b/i-1.png?w=1;h=2"))
          ++ "\">").data <:+: out.data
      ∧ ("<figcaption>" ++ htmlEscaper "A cat, sleeping." ++ "</figcaption>").data <:+: out.data
      ∧ (isSafeURL "https://h.example/a_b/i-1.png?w=1;h=2" = true →
          "https://h.example/a_b/i-1.png?w=1;h=2".data.all urlPlain = true →
          attrEscaper (urlNormalizer (urlFilter "https://h.example/a_b/i-1.png?w=1;h=2"))
            = "https://h.example/a_b/i-1.png?w=1;h=2")
      ∧ ("A cat, sleeping.".data.all htmlPlain = true →
          htmlEscaper "A cat, sleeping." = "A cat, sleeping.") :=
  image_figure_escaped [("src", .str "https://h.example/a_b/i-1.png?w=1;h=2"),
    ("caption", .str "A cat, sleeping.")] "https://h.example/a_b/i-1.png?w=1;h=2"
    "A cat, sleeping." rfl rfl (by decide)

/-- C5 fails as stated: for the src `data:image/png;base64,AAAA` and the caption
`a<b` the figure block holds neither `<img src="S">` nor the caption itself;
the URL filter replaced the src and the HTML escaper rewrote the caption. -/
theorem image_figure_not_verbatim :
    imageCard true (.object [("src", .str "data:image/png;base64,AAAA"), ("caption", .str "a<b")])
        = .ok "\n<figure>\n  <img src=\"#ZgotmplZ\">\n  <figcaption>a&lt;b</figcaption>\n</figure>\n"
      ∧ ¬ ("<img src=\"" ++ "data:image/png;base64,AAAA" ++ "\">").data
          <:+: ("\n<figure>\n  <img src=\"#ZgotmplZ\">\n  <figcaption>a&lt;b</figcaption>\n</figure>\n").data
      ∧ ¬ ("<figcaption>" ++ "a<b").data
          <:+: ("\n<figure>\n  <img src=\"#ZgotmplZ\">\n  <figcaption>a&lt;b</figcaption>\n</figure>\n").data := by
  refine ⟨rfl, ?_, ?_⟩ <;>
    simp [String.data_append, List.infix_cons_iff, List.cons_prefix_cons]

/-! ## The pipeline -/

theorem renderSections_writes (cards : String → Option (Value → Except Fault String)) (w : Writer)
    (sections : List Section) :
    ∀ calls : List String, ∃ ws : List String,
      (renderSections cards w sections calls).writes = calls ++ ws
      ∧ ws <+: sections.filterMap (sectionText cards) := by
  induction sections with
  | nil => intro calls; exact ⟨[], by simp [renderSections]⟩
  | cons sec rest ih =>
    intro calls
    cases sec with
    | text md =>
      cases hw : w calls md with
      | some err =>
        refine ⟨[md], by simp [renderSections, hw], ?_⟩
        simp [List.filterMap_cons, sectionText, List.cons_prefix_cons]
      | none =>
        obtain ⟨ws, h1, h2⟩ := ih (calls ++ [md])
        refine ⟨md :: ws, by simp [renderSections, hw, h1], ?_⟩
        simpa [List.filterMap_cons, sectionText, List.cons_prefix_cons] using h2
    | card name payload =>
      cases hc : cards name with
      | none => exact ⟨[], by simp [renderSections, hc]⟩
      | some handler =>
        cases hh : handler payload with
        | error fault => exact ⟨[], by simp [renderSections, hc, hh]⟩
        | ok s =>
          cases hw : w calls s with
          | some err =>
            refine ⟨[s], by simp [renderSections, hc, hh, hw], ?_⟩
            simp [List.filterMap_cons, sectionText, hc, hh, List.cons_prefix_cons]
          | none =>
            obtain ⟨ws, h1, h2⟩ := ih (calls ++ [s])
            refine ⟨s :: ws, by simp [renderSections, hc, hh, hw, h1], ?_⟩
            simpa [List.filterMap_cons, sectionText, hc, hh, List.cons_prefix_cons] using h2

theorem Render_writes (cards : String → Option (Value → Except Fault String)) (w : Writer)
    (mobiledoc : Except String (List Section)) (calls : List String) :
    ∃ ws : List String,
      (Render cards mobiledoc w calls).writes = calls ++ ws
      ∧ ws <+: (sectionsOf mobiledoc).filterMap (sectionText cards) := by
  cases mobiledoc with
  | error err => exact ⟨[], by simp [Render]⟩
  | ok sections => simpa [Render, sectionsOf] using renderSections_writes cards w sections calls

theorem renderSections_fault (cards : String → Option (Value → Except Fault String)) (w : Writer)
    (fault : Fault) (sections : List Section) :
    ∀ calls : List String, (renderSections cards w sections calls).outcome = .panicked fault →
      ∃ (pre : List Section) (name : String) (payload : Value) (post : List Section)
        (handler : Value → Except Fault String) (texts : List String),
        sections = pre ++ .card name payload :: post
        ∧ cards name = some handler ∧ handler payload = .error fault
        ∧ List.Forall₂ (fun sec t => sectionText cards sec = some t) pre texts
        ∧ (renderSections cards w sections calls).writes = calls ++ texts := by
  induction sections with
  | nil => intro calls h; simp [renderSections] at h
  | cons sec rest ih =>
    intro calls h
    cases sec with
    | text md =>
      cases hw : w calls md with
      | some err => simp [renderSections, hw] at h
      | none =>
        simp only [renderSections, hw] at h
        obtain ⟨pre, name, payload, post, handler, texts, h1, h2, h3, h4, h5⟩ := ih _ h
        refine ⟨.text md :: pre, name, payload, post, handler, md :: texts, by simp [h1], h2, h3,
          List.Forall₂.cons rfl h4, ?_⟩
        simp [renderSections, hw, h5]
    | card cname cpayload =>
      cases hc : cards cname with
      | none => simp [renderSections, hc] at h
      | some chandler =>
        cases hh : chandler cpayload with
        | error f =>
          simp only [renderSections, hc, hh, Outcome.panicked.injEq] at h
          subst h
          exact ⟨[], cname, cpayload, rest, chandler, [], rfl, hc, hh, List.Forall₂.nil,
            by simp [renderSections, hc, hh]⟩
        | ok s =>
          cases hw : w calls s with
          | some err => simp [renderSections, hc, hh, hw] at h
          | none =>
            simp only [renderSections, hc, hh, hw] at h
            obtain ⟨pre, name, payload, post, handler, texts, h1, h2, h3, h4, h5⟩ := ih _ h
            refine ⟨.card cname cpayload :: pre, name, payload, post, handler, s :: texts,
              by simp [h1], h2, h3, List.Forall₂.cons (by simp [sectionText, hc, hh]) h4, ?_⟩
            simp [renderSections, hc, hh, hw, h5]

/-- C4: for an envelope with a non-empty title T, in either figure mode, the
first string `convert` hands to the output stream is `# ` + T + two newlines,
T verbatim, so all it writes begins with that heading; the writes that follow
are document content of the renderer, section by section. -/
theorem convert_title_first (w : Writer) (T : String) (mobiledoc : Except String (List Section))
    (useFigure : Bool) (hT : T ≠ "") :
    ∃ rest : List String,
      (convert (.ok { Title := T, Mobiledoc := mobiledoc }) w useFigure).writes
        = ("# " ++ T ++ "\n\n") :: rest
      ∧ rest <+: (sectionsOf mobiledoc).filterMap (sectionText (cardTable useFigure))
      ∧ ("# " ++ T ++ "\n\n").data <+:
          (String.join (convert (.ok { Title := T, Mobiledoc := mobiledoc }) w useFigure).writes).data := by
  have key : ∃ rest : List String,
      (convert (.ok { Title := T, Mobiledoc := mobiledoc }) w useFigure).writes
        = ("# " ++ T ++ "\n\n") :: rest
      ∧ rest <+: (sectionsOf mobiledoc).filterMap (sectionText (cardTable useFigure)) := by
    cases hw : w [] ("# " ++ T ++ "\n\n") with
    | some err =>
      exact ⟨[], by simp [convert, hT, hw], List.nil_prefix⟩
    | none =>
      obtain ⟨ws, h1, h2⟩ := Render_writes (cardTable useFigure) w mobiledoc ["# " ++ T ++ "\n\n"]
      exact ⟨ws, by simp [convert, hT, hw, h1], h2⟩
  obtain ⟨rest, h1, h2⟩ := key
  refine ⟨rest, h1, h2, ?_⟩
  rw [h1, join_cons, String.data_append]
  exact List.prefix_append _ _

theorem convert_title_first_witness :
    ∃ rest : List String,
      (convert (.ok { Title := "Mon *titre*", Mobiledoc := .ok [.text "Bonjour.\n",
        .card "html" (.object [("html", .str "<hr>")])] }) acceptAll true).writes
        = ("# " ++ "Mon *titre*" ++ "\n\n") :: rest
      ∧ rest <+: (sectionsOf (.ok [.text "Bonjour.\n",
          .card "html" (.object [("html", .str "<hr>")])])).filterMap (sectionText (cardTable true))
      ∧ ("# " ++ "Mon *titre*" ++ "\n\n").data <+:
          (String.join (convert (.ok { Title := "Mon *titre*", Mobiledoc := .ok [.text "Bonjour.\n",
            .card "html" (.object [("html", .str "<hr>")])] }) acceptAll true).writes).data :=
  convert_title_first acceptAll "Mon *titre*" _ true (by decide)

/-- C6: when decoding the input stream into the envelope fails, `convert`
returns the error `error decoding input JSON: ` followed by the decoder's
message and hands nothing to the output stream, in either figure mode and
whatever the stream would accept: neither the title write nor the renderer is
reached. -/
theorem convert_decode_error (w : Writer) (err : String) (useFigure : Bool) :
    (convert (.error err) w useFigure).writes = []
      ∧ (convert (.error err) w useFigure).outcome
        = .returned (some ("error decoding input JSON: " ++ err)) := by
  constructor
  · rfl
  · rfl

/-- A run of `convert` that ends in a panic got there through a faulting card:
the document splits at that card, and the writes are the title heading, if
any, and the texts of the sections before it. -/
theorem convert_panicked_inv (w : Writer) (doc : Document) (useFigure : Bool) (fault : Fault)
    (h : (convert (.ok doc) w useFigure).outcome = .panicked fault) :
    ∃ (pre : List Section) (name : String) (payload : Value) (post : List Section)
      (handler : Value → Except Fault String) (texts : List String),
      doc.Mobiledoc = .ok (pre ++ .card name payload :: post)
      ∧ cardTable useFigure name = some handler ∧ handler payload = .error fault
      ∧ List.Forall₂ (fun sec t => sectionText (cardTable useFigure) sec = some t) pre texts
      ∧ (convert (.ok doc) w useFigure).writes = titleWrites doc.Title ++ texts := by
  have hrender : ∀ calls : List String,
      (Render (cardTable useFigure) doc.Mobiledoc w calls).outcome = .panicked fault →
      ∃ (pre : List Section) (name : String) (payload : Value) (post : List Section)
        (handler : Value → Except Fault String) (texts : List String),
        doc.Mobiledoc = .ok (pre ++ .card name payload :: post)
        ∧ cardTable useFigure name = some handler ∧ handler payload = .error fault
        ∧ List.Forall₂ (fun sec t => sectionText (cardTable useFigure) sec = some t) pre texts
        ∧ (Render (cardTable useFigure) doc.Mobiledoc w calls).writes = calls ++ texts := by
    intro calls hr
    cases hm : doc.Mobiledoc with
    | error err => simp [Render, hm] at hr
    | ok sections =>
      simp only [Render, hm] at hr
      obtain ⟨pre, name, payload, post, handler, texts, h1, h2, h3, h4, h5⟩ :=
        renderSections_fault (cardTable useFigure) w fault sections calls hr
      exact ⟨pre, name, payload, post, handler, texts, by rw [h1], h2, h3, h4,
        by simp only [Render]; exact h5⟩
  by_cases hT : doc.Title = ""
  · have hc : convert (.ok doc) w useFigure = Render (cardTable useFigure) doc.Mobiledoc w [] := by
      simp [convert, hT]
    rw [hc] at h
    obtain ⟨pre, name, payload, post, handler, texts, h1, h2, h3, h4, h5⟩ := hrender [] h
    exact ⟨pre, name, payload, post, handler, texts, h1, h2, h3, h4,
      by rw [hc, h5]; simp [titleWrites, hT]⟩
  · cases hw : w [] ("# " ++ doc.Title ++ "\n\n") with
    | some err => simp [convert, hT, hw] at h
    | none =>
      have hc : convert (.ok doc) w useFigure
          = Render (cardTable useFigure) doc.Mobiledoc w ["# " ++ doc.Title ++ "\n\n"] := by
        simp [convert, hT, hw]
      rw [hc] at h
      obtain ⟨pre, name, payload, post, handler, texts, h1, h2, h3, h4, h5⟩ := hrender _ h
      exact ⟨pre, name, payload, post, handler, texts, h1, h2, h3, h4,
        by rw [hc, h5]; simp [titleWrites, hT]⟩

theorem renderSections_reaches_fault (cards : String → Option (Value → Except Fault String))
    (w : Writer) (fault : Fault) (name : String) (payload : Value) (post : List Section)
    (handler : Value → Except Fault String) (hcard : cards name = some handler)
    (hfault : handler payload = .error fault) (pre : List Section) (texts : List String)
    (hpre : List.Forall₂ (fun sec t => sectionText cards sec = some t) pre texts) :
    ∀ calls : List String, acceptsFrom w calls texts = true →
      renderSections cards w (pre ++ .card name payload :: post) calls
        = { writes := calls ++ texts, outcome := .panicked fault } := by
  induction hpre with
  | nil =>
    intro calls _
    simp [renderSections, hcard, hfault]
  | @cons sec t pre texts hsec _ ih =>
    intro calls hw
    simp only [acceptsFrom, Bool.and_eq_true, Option.isNone_iff_eq_none] at hw
    obtain ⟨hw1, hw2⟩ := hw
    cases sec with
    | text md =>
      simp only [sectionText, Option.some.injEq] at hsec
      subst hsec
      simp [renderSections, hw1, ih _ hw2]
    | card cname cpayload =>
      cases hc : cards cname with
      | none => simp [sectionText, hc] at hsec
      | some chandler =>
        cases hh : chandler cpayload with
        | error f => simp [sectionText, hc, hh] at hsec
        | ok s =>
          simp only [sectionText, hc, hh, Option.some.injEq] at hsec
          subst hsec
          simp [renderSections, hc, hh, hw1, ih _ hw2]

/-- C7, as the code has it: when a card handler faults during rendering (the
sections before the card render, the stream accepts what is written up to
there, and the handler registered for the card faults on its payload), the
conversion ends there with the unrecovered panic: `convert` does not return,
the sections after the card are not rendered and nothing more is written.
What was written before the fault stays written: the title heading when the
title is not empty, then the text of every section before the faulting card. -/
theorem convert_fault_keeps_output (w : Writer) (doc : Document) (useFigure : Bool) (fault : Fault)
    (pre : List Section) (name : String) (payload : Value) (post : List Section)
    (handler : Value → Except Fault String) (texts : List String)
    (hdoc : doc.Mobiledoc = .ok (pre ++ .card name payload :: post))
    (hcard : cardTable useFigure name = some handler)
    (hfault : handler payload = .error fault)
    (hpre : List.Forall₂ (fun sec t => sectionText (cardTable useFigure) sec = some t) pre texts)
    (hw : acceptsFrom w [] (titleWrites doc.Title ++ texts) = true) :
    (convert (.ok doc) w useFigure).outcome = .panicked fault
      ∧ (convert (.ok doc) w useFigure).writes = titleWrites doc.Title ++ texts
      ∧ (doc.Title ≠ "" →
          (convert (.ok doc) w useFigure).writes = ("# " ++ doc.Title ++ "\n\n") :: texts) := by
  have hrun : convert (.ok doc) w useFigure
      = { writes := titleWrites doc.Title ++ texts, outcome := .panicked fault } := by
    by_cases hT : doc.Title = ""
    · have hw2 : acceptsFrom w [] texts = true := by simpa [titleWrites, hT] using hw
      have := renderSections_reaches_fault (cardTable useFigure) w fault name payload post handler
        hcard hfault pre texts hpre [] hw2
      simp [convert, hT, Render, hdoc, this, titleWrites]
    · have hw2 : w [] ("# " ++ doc.Title ++ "\n\n") = none
          ∧ acceptsFrom w ["# " ++ doc.Title ++ "\n\n"] texts = true := by
        simpa [titleWrites, hT, acceptsFrom] using hw
      have := renderSections_reaches_fault (cardTable useFigure) w fault name payload post handler
        hcard hfault pre texts hpre ["# " ++ doc.Title ++ "\n\n"] hw2.2
      simp [convert, hT, hw2.1, Render, hdoc, this, titleWrites]
  refine ⟨by rw [hrun], by rw [hrun], ?_⟩
  intro hT
  rw [hrun]
  simp [titleWrites, hT]

theorem convert_fault_keeps_output_witness :
    (convert (.ok (Document.mk "T" (.ok ([.text "a\n", .card "markdown"
        (.object [("markdown", .str "b\n")])] ++ .card "gallery" (.object [("images", .null)])
          :: [.text "c\n"])))) acceptAll true).outcome = .panicked .typeAssertion
      ∧ (convert (.ok (Document.mk "T" (.ok ([.text "a\n", .card "markdown"
        (.object [("markdown", .str "b\n")])] ++ .card "gallery" (.object [("images", .null)])
          :: [.text "c\n"])))) acceptAll true).writes
        = titleWrites (Document.mk "T" (.ok ([.text "a\n", .card "markdown"
            (.object [("markdown", .str "b\n")])] ++ .card "gallery" (.object [("images", .null)])
              :: [.text "c\n"]))).Title ++ ["a\n", "b\n"]
      ∧ ((Document.mk "T" (.ok ([.text "a\n", .card "markdown"
            (.object [("markdown", .str "b\n")])] ++ .card "gallery" (.object [("images", .null)])
              :: [.text "c\n"]))).Title ≠ "" →
          (convert (.ok (Document.mk "T" (.ok ([.text "a\n", .card "markdown"
            (.object [("markdown", .str "b\n")])] ++ .card "gallery" (.object [("images", .null)])
              :: [.text "c\n"])))) acceptAll true).writes
            = ("# " ++ (Document.mk "T" (.ok ([.text "a\n", .card "markdown"
            (.object [("markdown", .str "b\n")])] ++ .card "gallery" (.object [("images", .null)])
              :: [.text "c\n"]))).Title ++ "\n\n") :: ["a\n", "b\n"]) :=
  convert_fault_keeps_output acceptAll _ true .typeAssertion
    [.text "a\n", .card "markdown" (.object [("markdown", .str "b\n")])] "gallery"
    (.object [("images", .null)]) [.text "c\n"] (galleryCard true) ["a\n", "b\n"] rfl rfl rfl
    (List.Forall₂.cons rfl (List.Forall₂.cons rfl List.Forall₂.nil)) rfl

/-- C7 fails as stated: for the envelope with the title `T` whose document is
one `image` card whose payload has a caption and no `src`, the handler faults
during rendering and the title heading has already been written by then. -/
theorem convert_fault_after_title :
    imageCard false (.object [("caption", .str "c")]) = .error .typeAssertion
      ∧ (convert (.ok { Title := "T", Mobiledoc := .ok [.card "image"
          (.object [("caption", .str "c")])] }) acceptAll false).outcome
        = .panicked .typeAssertion
      ∧ (convert (.ok { Title := "T", Mobiledoc := .ok [.card "image"
          (.object [("caption", .str "c")])] }) acceptAll false).writes
        = ["# T\n\n"]
      ∧ (convert (.ok { Title := "T", Mobiledoc := .ok [.card "image"
          (.object [("caption", .str "c")])] }) acceptAll false).writes
        ≠ [] := by
  refine ⟨rfl, rfl, rfl, ?_⟩
  intro h
  cases h

/-- C9, as the code has it: for an envelope whose title is empty `convert`
writes no heading of its own: it writes exactly what the renderer writes, each
write being the text of a section of the document, in order.  A heading line is
in the output only when the document content itself produces one. -/
theorem convert_untitled (w : Writer) (doc : Document) (useFigure : Bool)
    (hT : doc.Title = "") :
    convert (.ok doc) w useFigure = Render (cardTable useFigure) doc.Mobiledoc w []
      ∧ (convert (.ok doc) w useFigure).writes
        <+: (sectionsOf doc.Mobiledoc).filterMap (sectionText (cardTable useFigure)) := by
  have hc : convert (.ok doc) w useFigure = Render (cardTable useFigure) doc.Mobiledoc w [] := by
    simp [convert, hT]
  refine ⟨hc, ?_⟩
  obtain ⟨ws, h1, h2⟩ := Render_writes (cardTable useFigure) w doc.Mobiledoc []
  rw [hc, h1]
  simpa using h2

theorem convert_untitled_witness :
    convert (.ok (Document.mk "" (.ok [.text "Some *text*.\n"]))) acceptAll false
        = Render (cardTable false) (Document.mk "" (.ok [.text "Some *text*.\n"])).Mobiledoc
            acceptAll []
      ∧ (convert (.ok (Document.mk "" (.ok [.text "Some *text*.\n"]))) acceptAll false).writes
        <+: (sectionsOf (Document.mk "" (.ok [.text "Some *text*.\n"])).Mobiledoc).filterMap
            (sectionText (cardTable false)) :=
  convert_untitled acceptAll _ false rfl

/-- C9 fails as stated: the envelope with an empty title whose document is one
`markdown` card with the payload `# Not a title` makes `convert` write a line
that begins with `# `. -/
theorem convert_untitled_heading :
    (convert (.ok { Title := "", Mobiledoc := .ok [.card "markdown"
        (.object [("markdown", .str "# Not a title\n")])] }) acceptAll false).outcome
        = .returned none
      ∧ (convert (.ok { Title := "", Mobiledoc := .ok [.card "markdown"
        (.object [("markdown", .str "# Not a title\n")])] }) acceptAll false).writes
        = ["# Not a title\n"]
      ∧ "# ".data <+: (String.join (convert (.ok { Title := "", Mobiledoc := .ok [.card "markdown"
        (.object [("markdown", .str "# Not a title\n")])] }) acceptAll false).writes).data := by
  refine ⟨rfl, rfl, ?_⟩
  exact ⟨"Not a title\n".data, rfl⟩

end MobiledocToMarkdown
